import Mathlib

/-!
Shallow embedding of the notes-backend core: the JWT utility
(src/utils/jwt.ts) and the note routes (src/routes/notes.ts), together
with the slice of the collaborators (the jsonwebtoken library and the
MongoDB store) that those two modules drive.

Modelling conventions:
* Machine state that the code reads from the environment (JWT_SECRET) is
  passed as an `Option String` argument; `none` models an unset variable.
* Time is a `Nat` (seconds); the signed token records absolute iat/exp
  instants, with the configured expiry duration passed as a `Nat` of
  seconds (the source default "24h" corresponds to 86400).
* A signed JWT string is modelled as a `Token` record carrying the facts
  verification inspects: the embedded payload, the issuer claim, the
  expiry instant, which secret produced the signature, and whether the
  three-segment structure is intact.  The jsonwebtoken check order is the
  library order: structure/signature first, then expiry, then issuer.
* Note ids are `Nat`; every representable id is a well-formed ObjectId,
  so the `mongoose.Types.ObjectId.isValid` guard (which only rejects
  malformed id strings) has no failing case in the model.
* The document store is a `List Note` in insertion order.  The store
  text-search predicate ($text) is an opaque collaborator and is passed
  as a function argument `textPred`.
* `sort({createdAt: -1})` is modelled two ways: an executable stable
  insertion sort (one admissible execution) used by the route function,
  and a relational specification `mongoSortSpecCreatedAtDesc` recording
  exactly what the sort document requires of the store, namely a
  permutation that is ordered by createdAt descending.
-/

/-- JavaScript String.prototype.trim, modelled on the character list:
drop whitespace from both ends. -/
def jsTrim (s : String) : String :=
  ⟨((s.data.dropWhile Char.isWhitespace).reverse.dropWhile Char.isWhitespace).reverse⟩

/-- Accumulator form of splitting a character list on commas. -/
def jsSplitCommaAux : List Char → List Char → List (List Char)
  | [], acc => [acc.reverse]
  | c :: rest, acc =>
    if c = ',' then acc.reverse :: jsSplitCommaAux rest []
    else jsSplitCommaAux rest (c :: acc)

/-- JavaScript s.split(","): splits on every comma and keeps empty
pieces, so the empty string yields [""]. -/
def jsSplitComma (s : String) : List String :=
  (jsSplitCommaAux s.data []).map (fun cs => ⟨cs⟩)

/-- JavaScript s.startsWith(p), modelled on the character lists. -/
def jsStartsWith (s p : String) : Bool :=
  s.data.take p.data.length == p.data

/-- Payload embedded in a token (interface JWTPayload, src/utils/jwt.ts). -/
structure JWTPayload where
  id : String
  email : String
  name : String
deriving DecidableEq, Repr

/-- The slice of the mongoose user document that generateToken reads. -/
structure IUser where
  uid : String
  email : String
  name : String
  password : String
deriving DecidableEq, Repr

/-- Model of a signed JWT string: the facts that jwt.verify inspects. -/
structure Token where
  payload : JWTPayload
  issuer : String
  iat : Nat
  exp : Nat
  secret : String
  wellFormed : Bool
deriving DecidableEq, Repr

/-- The three failure kinds of jwt.verify as the source observes them:
TokenExpiredError, JsonWebTokenError for a malformed token or a bad
signature, and JsonWebTokenError for an issuer mismatch. -/
inductive VerifyError where
  | Expired
  | InvalidSignatureOrMalformed
  | WrongIssuer
deriving DecidableEq, Repr

/-- JWTUtil.SECRET: process.env.JWT_SECRET with a hard-coded fallback. -/
def JWTUtil.SECRET (jwtSecretEnv : Option String) : String :=
  jwtSecretEnv.getD "fallback-secret-key"

/-- The fixed issuer constant passed to jwt.sign and jwt.verify. -/
def JWTUtil.fixedIssuer : String := "notes-api"

/-- Model of jsonwebtoken verify with an issuer option, in library check
order: structure and signature, then expiry, then issuer. -/
def jwtVerify (secret issuer : String) (now : Nat) (t : Token) :
    Except VerifyError JWTPayload :=
  if !t.wellFormed || t.secret != secret then
    .error .InvalidSignatureOrMalformed
  else if t.exp ≤ now then
    .error .Expired
  else if t.issuer != issuer then
    .error .WrongIssuer
  else
    .ok t.payload

/-- JWTUtil.generateToken: signs {id, email, name} with SECRET, issuer
"notes-api", and an expiry of expireSeconds from now (EXPIRE parsed,
default "24h" = 86400). -/
def JWTUtil.generateToken (jwtSecretEnv : Option String) (expireSeconds : Nat)
    (user : IUser) (now : Nat) : Token :=
  { payload := { id := user.uid, email := user.email, name := user.name }
    issuer := JWTUtil.fixedIssuer
    iat := now
    exp := now + expireSeconds
    secret := JWTUtil.SECRET jwtSecretEnv
    wellFormed := true }

/-- JWTUtil.verifyToken: jwt.verify with the issuer option, mapping
TokenExpiredError to "Token has expired" and every JsonWebTokenError
(bad signature, malformed token, wrong issuer) to "Invalid token". -/
def JWTUtil.verifyToken (jwtSecretEnv : Option String) (now : Nat) (t : Token) :
    Except String JWTPayload :=
  match jwtVerify (JWTUtil.SECRET jwtSecretEnv) JWTUtil.fixedIssuer now t with
  | .ok p => .ok p
  | .error .Expired => .error "Token has expired"
  | .error .InvalidSignatureOrMalformed => .error "Invalid token"
  | .error .WrongIssuer => .error "Invalid token"

/-- JWTUtil.extractTokenFromHeader.  The source guard `!authHeader` is
JavaScript falsiness, so an empty-string header takes the missing-header
branch exactly like an absent one. -/
def JWTUtil.extractTokenFromHeader (authHeader : Option String) :
    Except String String :=
  match authHeader with
  | none => .error "Authorization header is missing"
  | some h =>
    if h = "" then .error "Authorization header is missing"
    else if !(jsStartsWith h "Bearer ") then
      .error "Invalid authorization header format"
    else
      let token := jsTrim (h.drop 7)
      if token = "" then .error "Token is missing"
      else .ok token

/-- A stored note document (src/models/Note.ts). -/
structure Note where
  nid : Nat
  title : String
  content : String
  author : String
  tags : List String
  isArchived : Bool
  createdAt : Nat
  updatedAt : Nat
deriving DecidableEq, Repr

/-- Query-string parameters of GET /notes (interface NotesQuery); `none`
models an absent parameter.  The route schema validates page ≥ 1 and
1 ≤ limit ≤ 100, so theorems carry those bounds as hypotheses where the
arithmetic needs them. -/
structure NotesQuery where
  page : Option Nat := none
  limit : Option Nat := none
  search : Option String := none
  tags : Option String := none
  archived : Option Bool := none
deriving DecidableEq, Repr

/-- The MongoDB filter document the GET /notes handler assembles. -/
structure NotesFilter where
  author : String
  isArchived : Option Bool := none
  tagsIn : Option (List String) := none
  textSearch : Option String := none
deriving DecidableEq, Repr

/-- tags.split(",").map(trim).filter(nonempty) from the GET /notes handler. -/
def parseTags (s : String) : List String :=
  ((jsSplitComma s).map jsTrim).filter (fun t => t.length > 0)

/-- Filter construction of the GET /notes handler: always {author}, plus
isArchived when the archived parameter is a boolean, plus {tags: {$in:
tagArray}} when the cleaned tag list is non-empty, plus {$text: {$search:
search}} when search is truthy.  The `= ""` tests model JavaScript string
falsiness on the `if (tags)` and `if (search)` guards. -/
def buildFilter (authorId : String) (q : NotesQuery) : NotesFilter :=
  let f0 : NotesFilter := { author := authorId }
  let f1 := match q.archived with
    | some b => { f0 with isArchived := some b }
    | none => f0
  let f2 := match q.tags with
    | some ts =>
      if ts = "" then f1
      else if (parseTags ts).length > 0 then { f1 with tagsIn := some (parseTags ts) }
      else f1
    | none => f1
  match q.search with
  | some s => if s = "" then f2 else { f2 with textSearch := some s }
  | none => f2

/-- MongoDB match semantics of a NotesFilter document: author equality,
optional isArchived equality, $in over the tags array (any element of the
note tag list occurs in the requested list), and the opaque $text
predicate. -/
def matchesFilter (textPred : String → Note → Bool) (f : NotesFilter)
    (n : Note) : Bool :=
  n.author == f.author &&
  (match f.isArchived with | some b => n.isArchived == b | none => true) &&
  (match f.tagsIn with
   | some ts => n.tags.any (fun t => ts.contains t)
   | none => true) &&
  (match f.textSearch with | some s => textPred s n | none => true)

/-- Insert a note into a list already ordered by createdAt descending,
before the first strictly older note; on equal createdAt the inserted
note (earlier in insertion order) stays first, making the sort stable. -/
def insertCreatedAtDesc (n : Note) : List Note → List Note
  | [] => [n]
  | m :: rest =>
    if m.createdAt ≤ n.createdAt then n :: m :: rest
    else m :: insertCreatedAtDesc n rest

/-- One admissible execution of sort({createdAt: -1}): a stable insertion
sort by createdAt descending. -/
def sortCreatedAtDesc : List Note → List Note
  | [] => []
  | n :: rest => insertCreatedAtDesc n (sortCreatedAtDesc rest)

/-- What the sort document {createdAt: -1} actually requires of the
store: the output is a permutation of the matched notes ordered by
createdAt descending.  Nothing in the query constrains the relative
order of notes with equal createdAt. -/
def mongoSortSpecCreatedAtDesc (input out : List Note) : Prop :=
  out.Perm input ∧ out.Pairwise (fun a b => b.createdAt ≤ a.createdAt)

/-- Pagination metadata of the GET /notes response. -/
structure Pagination where
  currentPage : Nat
  totalPages : Nat
  totalNotes : Nat
  hasNext : Bool
  hasPrev : Bool
deriving DecidableEq, Repr

/-- Body of a successful GET /notes response. -/
structure ListResult where
  notes : List Note
  pagination : Pagination
deriving DecidableEq, Repr

/-- Notes of the store matching the filter the handler builds; used both
by find (before sort/skip/limit) and by countDocuments. -/
def matchingNotes (textPred : String → Note → Bool) (store : List Note)
    (authorId : String) (q : NotesQuery) : List Note :=
  store.filter (fun n => matchesFilter textPred (buildFilter authorId q) n)

/-- The GET /notes handler: defaults page = 1 and limit = 10, skip =
(page - 1) * limit, find + sort + skip + limit, countDocuments, and
totalPages = Math.ceil(totalNotes / limit) written as natural-number
ceiling division (exact for limit ≥ 1, which the schema guarantees). -/
def listNotes (textPred : String → Note → Bool) (store : List Note)
    (authorId : String) (q : NotesQuery) : ListResult :=
  let page := q.page.getD 1
  let limit := q.limit.getD 10
  let skip := (page - 1) * limit
  let matched := matchingNotes textPred store authorId q
  let totalNotes := matched.length
  let totalPages := (totalNotes + limit - 1) / limit
  { notes := ((sortCreatedAtDesc matched).drop skip).take limit
    pagination := {
      currentPage := page
      totalPages := totalPages
      totalNotes := totalNotes
      hasNext := decide (page < totalPages)
      hasPrev := decide (1 < page) } }

/-- Body of POST /notes (interface CreateNoteBody).  The TypeScript
interface has no author field and the route schema drops unrecognized
properties; the optional author field is carried here only so that the
theorems can state that a body-supplied author is ignored. -/
structure CreateNoteBody where
  title : String
  content : String
  tags : Option (List String) := none
  author : Option String := none
deriving DecidableEq, Repr

/-- tags.filter(tag => tag.trim().length > 0), shared by create and update. -/
def sanitizeTags (ts : List String) : List String :=
  ts.filter (fun t => (jsTrim t).length > 0)

/-- The POST /notes handler plus the mongoose save: the note is built
from {title, content, author: request.user.id, tags: sanitized}, the
schema trims title and each tag and defaults isArchived to false, and
timestamps are set server-side.  Returns the saved note and the new
store. -/
def createNote (store : List Note) (authorId : String) (b : CreateNoteBody)
    (now freshId : Nat) : Note × List Note :=
  let note : Note := {
    nid := freshId
    title := jsTrim b.title
    content := b.content
    author := authorId
    tags := (sanitizeTags (b.tags.getD [])).map jsTrim
    isArchived := false
    createdAt := now
    updatedAt := now }
  (note, store ++ [note])

/-- Body of PUT /notes/:id.  The TypeScript interface UpdateNoteBody
lists title, content, tags and isArchived, but the route schema does not
set additionalProperties to false, so Fastify keeps unknown body
properties and the runtime updates object can also carry an author key;
author is a Note schema path, so mongoose applies it (the value stands
for a well-formed ObjectId string).  Other unknown keys are not schema
paths and are dropped by mongoose strict mode, and createdAt is shielded
by the timestamps option, so these five fields are exactly the mutable
surface. -/
structure UpdateNoteBody where
  title : Option String := none
  content : Option String := none
  tags : Option (List String) := none
  isArchived : Option Bool := none
  author : Option String := none
deriving DecidableEq, Repr

/-- Object.keys(updates).length === 0: no body key at all is present
(an author-only body counts as one key and is not empty). -/
def UpdateNoteBody.isEmpty (b : UpdateNoteBody) : Bool :=
  b.title.isNone && b.content.isNone && b.tags.isNone && b.isArchived.isNone &&
    b.author.isNone

/-- The `if (updates.tags) updates.tags = updates.tags.filter(...)` step
of the PUT handler. -/
def sanitizeUpdateBody (b : UpdateNoteBody) : UpdateNoteBody :=
  match b.tags with
  | some ts => { b with tags := some (sanitizeTags ts) }
  | none => b

/-- Mongoose $set of the present fields onto a matched document, with
schema setters (trim on title and on each tag) and the updatedAt
timestamp refresh.  author is a schema path, so a body-supplied author
value is applied and changes the owner; nid (_id is immutable) and
createdAt (shielded by the timestamps option) are never update paths. -/
def applyUpdates (b : UpdateNoteBody) (now : Nat) (n : Note) : Note :=
  { n with
    title := match b.title with | some t => jsTrim t | none => n.title
    content := b.content.getD n.content
    tags := match b.tags with | some ts => ts.map jsTrim | none => n.tags
    isArchived := b.isArchived.getD n.isArchived
    author := b.author.getD n.author
    updatedAt := now }

/-- Note.findOneAndUpdate({_id: id, author: authorId}, updates, {new:
true}): atomically update the first document matching the single
(id AND author) filter, returning the updated document.  There are never
separate existence and ownership lookups. -/
def findOneAndUpdate (id : Nat) (authorId : String) (b : UpdateNoteBody)
    (now : Nat) : List Note → Option Note × List Note
  | [] => (none, [])
  | n :: rest =>
    if n.nid == id && n.author == authorId then
      (some (applyUpdates b now n), applyUpdates b now n :: rest)
    else
      let r := findOneAndUpdate id authorId b now rest
      (r.1, n :: r.2)

/-- Note.findOneAndDelete({_id: id, author: authorId}): atomically remove
the first document matching the single (id AND author) filter. -/
def findOneAndDelete (id : Nat) (authorId : String) :
    List Note → Option Note × List Note
  | [] => (none, [])
  | n :: rest =>
    if n.nid == id && n.author == authorId then (some n, rest)
    else
      let r := findOneAndDelete id authorId rest
      (r.1, n :: r.2)

/-- Externally observable outcome of PUT /notes/:id. -/
inductive UpdateResult where
  | badRequest (message : String)
  | notFound
  | ok (note : Note)
deriving DecidableEq, Repr

/-- The PUT /notes/:id handler: reject an empty body with 400, sanitize
tags, then a single scoped findOneAndUpdate; a miss (id absent or owned
by someone else) is one merged 404. -/
def updateNote (store : List Note) (authorId : String) (id : Nat)
    (b : UpdateNoteBody) (now : Nat) : UpdateResult × List Note :=
  if b.isEmpty then (.badRequest "No updates provided", store)
  else
    match findOneAndUpdate id authorId (sanitizeUpdateBody b) now store with
    | (none, store2) => (.notFound, store2)
    | (some n, store2) => (.ok n, store2)

/-- Externally observable outcome of DELETE /notes/:id. -/
inductive DeleteResult where
  | notFound
  | ok
deriving DecidableEq, Repr

/-- The DELETE /notes/:id handler: a single scoped findOneAndDelete; a
miss is the same merged 404 as for update. -/
def deleteNote (store : List Note) (authorId : String) (id : Nat) :
    DeleteResult × List Note :=
  match findOneAndDelete id authorId store with
  | (none, store2) => (.notFound, store2)
  | (some _, store2) => (.ok, store2)

/-- Externally observable outcome of GET /notes/:id. -/
inductive GetResult where
  | notFound
  | ok (note : Note)
deriving DecidableEq, Repr

/-- The GET /notes/:id handler: findOne({_id: id, author: authorId}). -/
def getNote (store : List Note) (authorId : String) (id : Nat) : GetResult :=
  match store.find? (fun n => n.nid == id && n.author == authorId) with
  | some n => .ok n
  | none => .notFound

/-- JSON error body {success, error, message}. -/
structure ErrorBody where
  success : Bool
  error : String
  message : String
deriving DecidableEq, Repr

/-- HTTP status of a PUT /notes/:id outcome. -/
def UpdateResult.status : UpdateResult → Nat
  | .badRequest _ => 400
  | .notFound => 404
  | .ok _ => 200

/-- Error body of a PUT /notes/:id outcome. -/
def UpdateResult.errorBody : UpdateResult → Option ErrorBody
  | .badRequest m => some { success := false, error := "Bad Request", message := m }
  | .notFound => some { success := false, error := "Not Found", message := "Note not found" }
  | .ok _ => none

/-- HTTP status of a DELETE /notes/:id outcome. -/
def DeleteResult.status : DeleteResult → Nat
  | .notFound => 404
  | .ok => 200

/-- Error body of a DELETE /notes/:id outcome. -/
def DeleteResult.errorBody : DeleteResult → Option ErrorBody
  | .notFound => some { success := false, error := "Not Found", message := "Note not found" }
  | .ok => none

/-- Inserting into the list permutes consing onto it. -/
theorem insertCreatedAtDesc_perm (n : Note) (l : List Note) :
    (insertCreatedAtDesc n l).Perm (n :: l) := by
  induction l with
  | nil => exact List.Perm.refl _
  | cons m rest ih =>
    by_cases hle : m.createdAt ≤ n.createdAt
    · simp only [insertCreatedAtDesc, if_pos hle]
      exact List.Perm.refl _
    · simp only [insertCreatedAtDesc, if_neg hle]
      exact (ih.cons m).trans (List.Perm.swap n m rest)

/-- The executable sort is a permutation of its input. -/
theorem sortCreatedAtDesc_perm (l : List Note) :
    (sortCreatedAtDesc l).Perm l := by
  induction l with
  | nil => exact List.Perm.refl _
  | cons n rest ih =>
    exact (insertCreatedAtDesc_perm n (sortCreatedAtDesc rest)).trans (ih.cons n)

/-- Membership is preserved by the executable sort. -/
theorem mem_sortCreatedAtDesc {n : Note} {l : List Note} :
    n ∈ sortCreatedAtDesc l ↔ n ∈ l :=
  (sortCreatedAtDesc_perm l).mem_iff

/-- Inserting into a createdAt-descending list keeps it descending. -/
theorem insertCreatedAtDesc_pairwise (n : Note) (l : List Note)
    (hl : l.Pairwise (fun a b => b.createdAt ≤ a.createdAt)) :
    (insertCreatedAtDesc n l).Pairwise (fun a b => b.createdAt ≤ a.createdAt) := by
  induction l with
  | nil => simp [insertCreatedAtDesc]
  | cons m rest ih =>
    rcases List.pairwise_cons.mp hl with ⟨hm, hrest⟩
    by_cases hle : m.createdAt ≤ n.createdAt
    · simp only [insertCreatedAtDesc, if_pos hle]
      refine List.pairwise_cons.mpr ⟨?_, hl⟩
      intro x hx
      rcases List.mem_cons.mp hx with rfl | hx
      · exact hle
      · exact le_trans (hm x hx) hle
    · simp only [insertCreatedAtDesc, if_neg hle]
      refine List.pairwise_cons.mpr ⟨?_, ih hrest⟩
      intro x hx
      rcases List.mem_cons.mp ((insertCreatedAtDesc_perm n rest).mem_iff.mp hx) with rfl | hx
      · exact le_of_not_le hle
      · exact hm x hx

/-- The executable sort orders by createdAt descending. -/
theorem sortCreatedAtDesc_pairwise (l : List Note) :
    (sortCreatedAtDesc l).Pairwise (fun a b => b.createdAt ≤ a.createdAt) := by
  induction l with
  | nil => simp [sortCreatedAtDesc]
  | cons n rest ih => exact insertCreatedAtDesc_pairwise n _ ih

/-- The filter document always carries the authenticated author id. -/
theorem buildFilter_author (authorId : String) (q : NotesQuery) :
    (buildFilter authorId q).author = authorId := by
  rcases q with ⟨p, l, s, t, a⟩
  simp only [buildFilter]
  cases a <;> cases t <;> cases s <;> dsimp only <;> split_ifs <;> rfl

/-- A note passing the filter belongs to the author the filter names. -/
theorem author_eq_of_matchesFilter {textPred : String → Note → Bool}
    {f : NotesFilter} {n : Note}
    (h : matchesFilter textPred f n = true) : n.author = f.author := by
  simp only [matchesFilter, Bool.and_eq_true, beq_iff_eq] at h
  exact h.1.1.1

/-- The notes field of the GET /notes response, unfolded. -/
theorem listNotes_notes (textPred : String → Note → Bool) (store : List Note)
    (authorId : String) (q : NotesQuery) :
    (listNotes textPred store authorId q).notes =
      ((sortCreatedAtDesc (matchingNotes textPred store authorId q)).drop
        ((q.page.getD 1 - 1) * q.limit.getD 10)).take (q.limit.getD 10) := rfl

/-- The pagination field of the GET /notes response, unfolded. -/
theorem listNotes_pagination (textPred : String → Note → Bool) (store : List Note)
    (authorId : String) (q : NotesQuery) :
    (listNotes textPred store authorId q).pagination =
      { currentPage := q.page.getD 1
        totalPages := ((matchingNotes textPred store authorId q).length +
          q.limit.getD 10 - 1) / q.limit.getD 10
        totalNotes := (matchingNotes textPred store authorId q).length
        hasNext := decide (q.page.getD 1 <
          ((matchingNotes textPred store authorId q).length +
            q.limit.getD 10 - 1) / q.limit.getD 10)
        hasPrev := decide (1 < q.page.getD 1) } := rfl

/-- Every note in a GET /notes result matched the assembled filter. -/
theorem mem_matchingNotes_of_mem_listNotes {textPred : String → Note → Bool}
    {store : List Note} {authorId : String} {q : NotesQuery} {n : Note}
    (h : n ∈ (listNotes textPred store authorId q).notes) :
    n ∈ matchingNotes textPred store authorId q := by
  rw [listNotes_notes] at h
  exact mem_sortCreatedAtDesc.mp (List.mem_of_mem_drop (List.mem_of_mem_take h))

/-- C1: for every authenticated GET /notes request, whatever combination
of page, limit, search, tags and archived is supplied, the filter sent
to the store carries the authenticated author id, and consequently every
note in the response belongs to the requester. -/
theorem C1_listing_owner_scoped (textPred : String → Note → Bool)
    (store : List Note) (authorId : String) (q : NotesQuery) (n : Note)
    (hn : n ∈ (listNotes textPred store authorId q).notes) :
    (buildFilter authorId q).author = authorId ∧ n.author = authorId := by
  refine ⟨buildFilter_author authorId q, ?_⟩
  have hm := mem_matchingNotes_of_mem_listNotes hn
  simp only [matchingNotes, List.mem_filter] at hm
  exact (author_eq_of_matchesFilter hm.2).trans (buildFilter_author authorId q)

/-- Concrete note used by several witnesses. -/
def wNote : Note :=
  { nid := 1, title := "t", content := "c", author := "alice",
    tags := ["work"], isArchived := false, createdAt := 3, updatedAt := 3 }

/-- Witness for C1 at a concrete store and query. -/
theorem C1_listing_owner_scoped_witness :
    (buildFilter "alice" ({ tags := some "work", archived := some false } : NotesQuery)).author = "alice" ∧
    wNote.author = "alice" := by
  have hn : wNote ∈ (listNotes (fun _ _ => true) [wNote] "alice"
      { tags := some "work", archived := some false }).notes := by decide
  exact C1_listing_owner_scoped (fun _ _ => true) [wNote] "alice"
    { tags := some "work", archived := some false } wNote hn

/-- When no document matches the single (id AND author) filter, the
scoped update touches nothing and reports a miss. -/
theorem findOneAndUpdate_no_match (id : Nat) (authorId : String)
    (b : UpdateNoteBody) (now : Nat) (store : List Note)
    (h : ∀ n ∈ store, ¬(n.nid = id ∧ n.author = authorId)) :
    findOneAndUpdate id authorId b now store = (none, store) := by
  induction store with
  | nil => rfl
  | cons n rest ih =>
    have hn := h n (List.mem_cons_self n rest)
    have hcond : (n.nid == id && n.author == authorId) = false := by
      rcases not_and_or.mp hn with h1 | h1 <;> simp [h1]
    simp [findOneAndUpdate, hcond, ih (fun m hm => h m (List.mem_cons_of_mem n hm))]

/-- When no document matches the single (id AND author) filter, the
scoped delete removes nothing and reports a miss. -/
theorem findOneAndDelete_no_match (id : Nat) (authorId : String)
    (store : List Note)
    (h : ∀ n ∈ store, ¬(n.nid = id ∧ n.author = authorId)) :
    findOneAndDelete id authorId store = (none, store) := by
  induction store with
  | nil => rfl
  | cons n rest ih =>
    have hn := h n (List.mem_cons_self n rest)
    have hcond : (n.nid == id && n.author == authorId) = false := by
      rcases not_and_or.mp hn with h1 | h1 <;> simp [h1]
    simp [findOneAndDelete, hcond, ih (fun m hm => h m (List.mem_cons_of_mem n hm))]

/-- C2: when the target id does not exist at all, or exists but is owned
by a different account, PUT /notes/:id and DELETE /notes/:id behave
identically: the single (id AND author) scoped match misses, the store
is untouched, and both routes answer the merged 404 with the same
{success: false, error: "Not Found", message: "Note not found"} body.
The outcome equals the outcome on an empty store, so the two situations
are indistinguishable to the caller.  (A body with no recognized field
is rejected as 400 before the store is consulted, identically in both
situations.) -/
theorem C2_update_delete_merged_not_found (store : List Note)
    (authorId : String) (id : Nat) (b : UpdateNoteBody) (now : Nat)
    (h : ∀ n ∈ store, ¬(n.nid = id ∧ n.author = authorId)) :
    (b.isEmpty = false →
      (updateNote store authorId id b now).1 = .notFound ∧
      (updateNote store authorId id b now).1.status = 404 ∧
      (updateNote store authorId id b now).1.errorBody =
        (deleteNote store authorId id).1.errorBody) ∧
    (deleteNote store authorId id).1 = .notFound ∧
    (deleteNote store authorId id).1.status = 404 ∧
    (updateNote store authorId id b now).2 = store ∧
    (deleteNote store authorId id).2 = store ∧
    (updateNote store authorId id b now).1 = (updateNote [] authorId id b now).1 ∧
    (deleteNote store authorId id).1 = (deleteNote [] authorId id).1 := by
  have hu := findOneAndUpdate_no_match id authorId (sanitizeUpdateBody b) now store h
  have hd := findOneAndDelete_no_match id authorId store h
  cases hb : b.isEmpty <;>
    simp_all [updateNote, deleteNote, UpdateResult.status, DeleteResult.status,
      UpdateResult.errorBody, DeleteResult.errorBody, findOneAndUpdate,
      findOneAndDelete]

/-- Concrete note owned by bob, used by witnesses. -/
def wNoteBob : Note :=
  { nid := 2, title := "t2", content := "c2", author := "bob",
    tags := [], isArchived := false, createdAt := 4, updatedAt := 4 }

/-- Witness for C2: alice updating or deleting the note owned by bob
gets the merged 404 and the store keeps the note. -/
theorem C2_update_delete_merged_not_found_witness :
    (updateNote [wNoteBob] "alice" 2 { title := some "x" } 9).1 = .notFound ∧
    (deleteNote [wNoteBob] "alice" 2).1 = .notFound ∧
    (updateNote [wNoteBob] "alice" 2 { title := some "x" } 9).2 = [wNoteBob] ∧
    (deleteNote [wNoteBob] "alice" 2).2 = [wNoteBob] := by
  have h : ∀ n ∈ [wNoteBob], ¬(n.nid = 2 ∧ n.author = "alice") := by decide
  have hc := C2_update_delete_merged_not_found [wNoteBob] "alice" 2
    { title := some "x" } 9 h
  have hb : ({ title := some "x" } : UpdateNoteBody).isEmpty = false := by decide
  exact ⟨(hc.1 hb).1, hc.2.1, hc.2.2.2.1, hc.2.2.2.2.1⟩

/-- When the update document carries no author key, the scoped update
changes neither the id nor the author of any stored note: it only
rewrites title, content, tags, isArchived and updatedAt of the single
matched document. -/
theorem findOneAndUpdate_map_nid_author (id : Nat) (authorId : String)
    (b : UpdateNoteBody) (now : Nat) (store : List Note)
    (hb : b.author = none) :
    ((findOneAndUpdate id authorId b now store).2).map (fun n => (n.nid, n.author)) =
      store.map (fun n => (n.nid, n.author)) := by
  induction store with
  | nil => rfl
  | cons n rest ih =>
    cases hc : (n.nid == id && n.author == authorId) <;>
      simp [findOneAndUpdate, hc, applyUpdates, hb, ih]

/-- The handler tag sanitization step touches only the tags field. -/
theorem sanitizeUpdateBody_author (b : UpdateNoteBody) :
    (sanitizeUpdateBody b).author = b.author := by
  cases hb : b.tags <;> simp [sanitizeUpdateBody, hb]

/-- The store returned by the PUT handler, unfolded. -/
theorem updateNote_snd (store : List Note) (authorId : String) (id : Nat)
    (b : UpdateNoteBody) (now : Nat) :
    (updateNote store authorId id b now).2 =
      if b.isEmpty then store
      else (findOneAndUpdate id authorId (sanitizeUpdateBody b) now store).2 := by
  cases hb : b.isEmpty
  · rcases hr : findOneAndUpdate id authorId (sanitizeUpdateBody b) now store with ⟨r1, r2⟩
    cases r1 <;> simp [updateNote, hb, hr]
  · simp [updateNote, hb]

/-- The store returned by the DELETE handler, unfolded. -/
theorem deleteNote_snd (store : List Note) (authorId : String) (id : Nat) :
    (deleteNote store authorId id).2 = (findOneAndDelete id authorId store).2 := by
  rcases hr : findOneAndDelete id authorId store with ⟨r1, r2⟩
  cases r1 <;> simp [deleteNote, hr]

/-- Note owned by alice used by the C3 counterexample. -/
def wNoteAlice : Note :=
  { nid := 4, title := "t4", content := "c4", author := "alice",
    tags := [], isArchived := false, createdAt := 6, updatedAt := 6 }

/-- C3 counterexample: the owner is not immutable after creation.  A PUT
by the current owner whose body carries an author key — accepted because
no route schema sets additionalProperties to false, and applied because
author is a Note schema path in findOneAndUpdate — succeeds with 200 and
transfers the note to another account. -/
theorem C3_owner_mutable_counterexample :
    (updateNote [wNoteAlice] "alice" 4 { author := some "mallory" } 9).1 =
      .ok { nid := 4, title := "t4", content := "c4", author := "mallory",
            tags := [], isArchived := false, createdAt := 6, updatedAt := 9 } ∧
    (updateNote [wNoteAlice] "alice" 4 { author := some "mallory" } 9).2 =
      [{ nid := 4, title := "t4", content := "c4", author := "mallory",
         tags := [], isArchived := false, createdAt := 6, updatedAt := 9 }] ∧
    wNoteAlice.author = "alice" := by
  refine ⟨?_, ?_, rfl⟩ <;> decide

/-- C3 (amended): the persisted note of POST /notes has the
authenticated identity as author no matter what the body carries (a
body-supplied author value changes nothing on create); a PUT whose body
carries no author key changes neither the author nor the id of any
stored note, but the owner is not immutable in general: a body-supplied
author key is applied by the scoped update (see the counterexample). -/
theorem C3_owner_from_identity_on_create (store : List Note)
    (authorId : String) (b : CreateNoteBody) (now freshId : Nat) :
    (createNote store authorId b now freshId).1.author = authorId ∧
    (∀ a : Option String,
      createNote store authorId { b with author := a } now freshId =
        createNote store authorId b now freshId) ∧
    (∀ (s : List Note) (otherId : String) (id : Nat) (u : UpdateNoteBody) (t : Nat),
      u.author = none →
      ((updateNote s otherId id u t).2).map (fun n => (n.nid, n.author)) =
        s.map (fun n => (n.nid, n.author))) := by
  refine ⟨rfl, fun a => rfl, fun s otherId id u t hu => ?_⟩
  rw [updateNote_snd]
  split
  · rfl
  · exact findOneAndUpdate_map_nid_author id otherId (sanitizeUpdateBody u) t s
      ((sanitizeUpdateBody_author u).trans hu)

/-- Witness for C3: a create as alice is owned by alice, and an
author-free update by bob leaves the ids and owners of his store
unchanged. -/
theorem C3_owner_from_identity_on_create_witness :
    (createNote [] "alice" { title := "t", content := "c" } 1 5).1.author = "alice" ∧
    ((updateNote [wNoteBob] "bob" 2 { title := some "x" } 9).2).map
      (fun n => (n.nid, n.author)) = [(2, "bob")] := by
  have h := C3_owner_from_identity_on_create [] "alice"
    { title := "t", content := "c" } 1 5
  refine ⟨h.1, ?_⟩
  rw [h.2.2 [wNoteBob] "bob" 2 { title := some "x" } 9 rfl]
  decide

/-- A note that does not match the single (id AND author) filter is
still in the store after the scoped update. -/
theorem mem_findOneAndUpdate_snd (id : Nat) (authorId : String)
    (b : UpdateNoteBody) (now : Nat) (store : List Note) (n : Note)
    (hmem : n ∈ store) (h : ¬(n.nid = id ∧ n.author = authorId)) :
    n ∈ (findOneAndUpdate id authorId b now store).2 := by
  induction store with
  | nil => cases hmem
  | cons m rest ih =>
    cases hc : (m.nid == id && m.author == authorId)
    · rcases List.mem_cons.mp hmem with rfl | hmem2
      · simp [findOneAndUpdate, hc]
      · simp [findOneAndUpdate, hc, ih hmem2]
    · rcases List.mem_cons.mp hmem with rfl | hmem2
      · exact absurd (by simpa [beq_iff_eq] using hc) h
      · simp [findOneAndUpdate, hc, hmem2]

/-- A note that does not match the single (id AND author) filter is
still in the store after the scoped delete. -/
theorem mem_findOneAndDelete_snd (id : Nat) (authorId : String)
    (store : List Note) (n : Note)
    (hmem : n ∈ store) (h : ¬(n.nid = id ∧ n.author = authorId)) :
    n ∈ (findOneAndDelete id authorId store).2 := by
  induction store with
  | nil => cases hmem
  | cons m rest ih =>
    cases hc : (m.nid == id && m.author == authorId)
    · rcases List.mem_cons.mp hmem with rfl | hmem2
      · simp [findOneAndDelete, hc]
      · simp [findOneAndDelete, hc, ih hmem2]
    · rcases List.mem_cons.mp hmem with rfl | hmem2
      · exact absurd (by simpa [beq_iff_eq] using hc) h
      · simp [findOneAndDelete, hc, hmem2]

/-- C4: for a note owned by one account, a PUT (with any body) or a
DELETE on its id authenticated as a different account leaves that exact
note record, owner included, in the store unchanged; and a GET can only
ever return a note owned by the requester, never this one.  GET /notes/:id
is modelled by the pure function getNote, so it has no store effect at
all. -/
theorem C4_cross_account_frame (store : List Note) (otherId : String)
    (n : Note) (b : UpdateNoteBody) (now : Nat)
    (hmem : n ∈ store) (hown : n.author ≠ otherId) :
    n ∈ (updateNote store otherId n.nid b now).2 ∧
    n ∈ (deleteNote store otherId n.nid).2 ∧
    (∀ m : Note, getNote store otherId n.nid = .ok m → m.author = otherId ∧ m ≠ n) := by
  have hno : ¬(n.nid = n.nid ∧ n.author = otherId) := fun hc => hown hc.2
  refine ⟨?_, ?_, ?_⟩
  · rw [updateNote_snd]
    split
    · exact hmem
    · exact mem_findOneAndUpdate_snd n.nid otherId (sanitizeUpdateBody b) now store n hmem hno
  · rw [deleteNote_snd]
    exact mem_findOneAndDelete_snd n.nid otherId store n hmem hno
  · intro m hm
    cases hf : store.find? (fun x => x.nid == n.nid && x.author == otherId) with
    | none => simp [getNote, hf] at hm
    | some x =>
      have hx := List.find?_some hf
      simp only [Bool.and_eq_true, beq_iff_eq] at hx
      simp only [getNote, hf, GetResult.ok.injEq] at hm
      subst hm
      exact ⟨hx.2, fun he => hown (he ▸ hx.2)⟩

/-- Witness for C4: bob keeps his note untouched when alice updates or
deletes by its id. -/
theorem C4_cross_account_frame_witness :
    wNoteBob ∈ (updateNote [wNoteBob] "alice" 2 { isArchived := some true } 9).2 ∧
    wNoteBob ∈ (deleteNote [wNoteBob] "alice" 2).2 := by
  have hmem : wNoteBob ∈ [wNoteBob] := List.mem_singleton.mpr rfl
  have hown : wNoteBob.author ≠ "alice" := by decide
  have hc := C4_cross_account_frame [wNoteBob] "alice" wNoteBob
    { isArchived := some true } 9 hmem hown
  exact ⟨hc.1, hc.2.1⟩

/-- C5 counterexample: with zero matching notes and page = 2 the
response reports totalNotes = 0 yet hasPrev = true (the code computes
hasPrev as page > 1 unconditionally), refuting the clause that both
flags are false for every page whenever totalMatching = 0. -/
theorem C5_pagination_counterexample :
    (listNotes (fun _ _ => false) [] "u" { page := some 2 }).pagination.totalNotes = 0 ∧
    (listNotes (fun _ _ => false) [] "u" { page := some 2 }).pagination.hasPrev = true :=
  ⟨rfl, rfl⟩

/-- C5 (amended): with page p and limit L (schema: L ≥ 1), the results
are the sorted matches with exactly (p - 1) * L notes skipped and at
most L kept; totalPages is the ceiling of totalMatching / L; hasNext is
p < totalPages and hasPrev is p > 1.  When totalMatching = 0, totalPages
is 0 and hasNext is false, while hasPrev still equals p > 1 (so it is
false only on page 1). -/
theorem C5_pagination_laws (textPred : String → Note → Bool)
    (store : List Note) (authorId : String) (q : NotesQuery)
    (hL : 1 ≤ q.limit.getD 10) :
    (listNotes textPred store authorId q).notes =
      ((sortCreatedAtDesc (matchingNotes textPred store authorId q)).drop
        ((q.page.getD 1 - 1) * q.limit.getD 10)).take (q.limit.getD 10) ∧
    (listNotes textPred store authorId q).pagination.totalNotes =
      (matchingNotes textPred store authorId q).length ∧
    (listNotes textPred store authorId q).pagination.totalPages =
      (matchingNotes textPred store authorId q).length ⌈/⌉ q.limit.getD 10 ∧
    (listNotes textPred store authorId q).pagination.hasNext =
      decide (q.page.getD 1 < (listNotes textPred store authorId q).pagination.totalPages) ∧
    (listNotes textPred store authorId q).pagination.hasPrev =
      decide (1 < q.page.getD 1) ∧
    ((matchingNotes textPred store authorId q).length = 0 →
      (listNotes textPred store authorId q).pagination.totalPages = 0 ∧
      (listNotes textPred store authorId q).pagination.hasNext = false) := by
  refine ⟨rfl, rfl, rfl, rfl, rfl, fun h0 => ?_⟩
  have hp : (listNotes textPred store authorId q).pagination.totalPages = 0 := by
    rw [listNotes_pagination]
    simp only [h0]
    exact Nat.div_eq_of_lt (by omega)
  refine ⟨hp, ?_⟩
  rw [listNotes_pagination] at hp ⊢
  simp only at hp ⊢
  rw [hp]
  simp

/-- Witness for C5 at a concrete query: one matching note, limit 1,
page 2, so totalPages = 1, hasNext = false, hasPrev = true. -/
theorem C5_pagination_laws_witness :
    1 ≤ (({ page := some 2, limit := some 1 } : NotesQuery).limit.getD 10) ∧
    (listNotes (fun _ _ => true) [wNote] "alice"
      { page := some 2, limit := some 1 }).pagination.totalPages = 1 ⌈/⌉ 1 := by
  have h := C5_pagination_laws (fun _ _ => true) [wNote] "alice"
    { page := some 2, limit := some 1 } (by decide)
  refine ⟨by decide, ?_⟩
  have hm : (matchingNotes (fun _ _ => true) [wNote] "alice"
      { page := some 2, limit := some 1 }).length = 1 := by decide
  simpa [hm] using h.2.2.1

/-- Cleaning the empty tags string yields no tokens. -/
theorem parseTags_empty : parseTags "" = [] := rfl

/-- Boolean list containment agrees with membership. -/
theorem contains_true_iff_mem (ts : List String) (t : String) :
    ts.contains t = true ↔ t ∈ ts := by simp

/-- A filter with a $in tag constraint matches exactly the notes that
match the same filter without it and whose tag list intersects the
requested list. -/
theorem matchesFilter_with_tagsIn (textPred : String → Note → Bool)
    (f : NotesFilter) (hf : f.tagsIn = none) (ts : List String) (n : Note) :
    (matchesFilter textPred { f with tagsIn := some ts } n = true ↔
      (matchesFilter textPred f n = true ∧ ∃ t ∈ n.tags, t ∈ ts)) := by
  rcases f with ⟨fa, far, fti, fts⟩
  simp only at hf
  subst hf
  simp only [matchesFilter, Bool.and_eq_true, beq_iff_eq, List.any_eq_true,
    contains_true_iff_mem]
  tauto

/-- When the cleaned tag list is empty, the handler omits the tag filter
entirely: the filter document equals the one for the same query without
the tags parameter. -/
theorem buildFilter_tags_cleaned_empty (authorId : String) (q : NotesQuery)
    (s : String) (hq : q.tags = some s) (h : parseTags s = []) :
    buildFilter authorId q = buildFilter authorId { q with tags := none } := by
  rcases q with ⟨p, l, se, t, a⟩
  simp only [NotesQuery.mk.injEq] at hq
  cases hq
  cases a <;> cases se <;> simp [buildFilter, h]

/-- When the cleaned tag list is non-empty, the filter document is the
tagless one plus the $in constraint on the cleaned list. -/
theorem buildFilter_tags_cleaned_nonempty (authorId : String) (q : NotesQuery)
    (s : String) (hq : q.tags = some s) (h : parseTags s ≠ []) :
    buildFilter authorId q =
      { buildFilter authorId { q with tags := none } with
          tagsIn := some (parseTags s) } := by
  have hs : s ≠ "" := fun he => h (by rw [he]; exact parseTags_empty)
  have hlen : 0 < (parseTags s).length := List.length_pos.mpr h
  rcases q with ⟨p, l, se, t, a⟩
  simp only [NotesQuery.mk.injEq] at hq
  cases hq
  cases a <;> cases se <;> simp [buildFilter, hs, hlen] <;> split_ifs <;> rfl

/-- The tagless filter document carries no $in constraint. -/
theorem buildFilter_tagsIn_none (authorId : String) (q : NotesQuery)
    (hq : q.tags = none) : (buildFilter authorId q).tagsIn = none := by
  rcases q with ⟨p, l, se, t, a⟩
  simp only [NotesQuery.mk.injEq] at hq
  cases hq
  cases a <;> cases se <;> simp [buildFilter] <;> split_ifs <;> rfl

/-- C6: the tags parameter is split on commas, tokens trimmed, empties
dropped (parseTags); when the cleaned list is non-empty a note matches
the assembled filter exactly when it matches the tagless filter and its
tag list intersects the cleaned list (any-of); when the cleaned list is
empty the whole listing result is the one for the query without the tags
parameter, not an empty result. -/
theorem C6_tag_filter (textPred : String → Note → Bool) (store : List Note)
    (authorId : String) (q : NotesQuery) (s : String) (hq : q.tags = some s) :
    parseTags s = ((jsSplitComma s).map jsTrim).filter (fun t => t.length > 0) ∧
    (parseTags s ≠ [] →
      ∀ n : Note,
        (matchesFilter textPred (buildFilter authorId q) n = true ↔
          (matchesFilter textPred (buildFilter authorId { q with tags := none }) n = true ∧
           ∃ t ∈ n.tags, t ∈ parseTags s))) ∧
    (parseTags s = [] →
      listNotes textPred store authorId q =
        listNotes textPred store authorId { q with tags := none }) := by
  refine ⟨rfl, fun h n => ?_, fun h => ?_⟩
  · rw [buildFilter_tags_cleaned_nonempty authorId q s hq h]
    have h0 := buildFilter_tagsIn_none authorId { q with tags := none } rfl
    exact matchesFilter_with_tagsIn textPred _ h0 (parseTags s) n
  · have hf := buildFilter_tags_cleaned_empty authorId q s hq h
    rcases q with ⟨p, l, se, t, a⟩
    simp only [listNotes, matchingNotes, hf]

/-- Concrete tagged note used by the C6 witness. -/
def wNoteTag : Note :=
  { nid := 3, title := "t3", content := "c3", author := "alice",
    tags := ["b", "z"], isArchived := false, createdAt := 5, updatedAt := 5 }

/-- Witness for C6: tags = "a, ,b" cleans to ["a", "b"]; the note tagged
["b", "z"] matches the assembled filter and indeed intersects the set. -/
theorem C6_tag_filter_witness :
    matchesFilter (fun _ _ => true)
      (buildFilter "alice" { tags := some "a, ,b" }) wNoteTag = true ∧
    (∃ t ∈ wNoteTag.tags, t ∈ parseTags "a, ,b") ∧
    listNotes (fun _ _ => true) [wNoteTag] "alice" { tags := some " , " } =
      listNotes (fun _ _ => true) [wNoteTag] "alice" { tags := none } := by
  have h := C6_tag_filter (fun _ _ => true) [] "alice"
    { tags := some "a, ,b" } "a, ,b" rfl
  have hne : parseTags "a, ,b" ≠ [] := by decide
  have hm : matchesFilter (fun _ _ => true)
      (buildFilter "alice" { tags := some "a, ,b" }) wNoteTag = true := by decide
  have h2 := C6_tag_filter (fun _ _ => true) [wNoteTag] "alice"
    { tags := some " , " } " , " rfl
  have hemp : parseTags " , " = [] := by decide
  exact ⟨hm, ((h.2.1 hne wNoteTag).mp hm).2, h2.2.2 hemp⟩

/-- Whether jwt.verify accepts the token: structure intact, signed with
the expected secret, not yet expired, and carrying the fixed issuer. -/
def trustedToken (secret : String) (now : Nat) (t : Token) : Bool :=
  t.wellFormed && t.secret == secret && decide (now < t.exp) &&
    t.issuer == JWTUtil.fixedIssuer

/-- C7: verifyToken returns the embedded payload unchanged exactly on
trusted tokens; an untrusted token fails with exactly one of the three
kinds Expired, InvalidSignatureOrMalformed, WrongIssuer (surfaced as
"Token has expired" for the first and "Invalid token" for the other
two); in particular a well-formed, correctly signed, unexpired token
whose issuer differs from "notes-api" is rejected with WrongIssuer. -/
theorem C7_verifyToken_taxonomy (env : Option String) (now : Nat) (t : Token) :
    (∀ p, JWTUtil.verifyToken env now t = .ok p → p = t.payload) ∧
    (trustedToken (JWTUtil.SECRET env) now t = true →
      JWTUtil.verifyToken env now t = .ok t.payload) ∧
    (trustedToken (JWTUtil.SECRET env) now t = false →
      ∃ e : VerifyError,
        jwtVerify (JWTUtil.SECRET env) JWTUtil.fixedIssuer now t = .error e ∧
        JWTUtil.verifyToken env now t =
          .error (if e = .Expired then "Token has expired" else "Invalid token")) ∧
    (t.wellFormed = true → t.secret = JWTUtil.SECRET env → now < t.exp →
      t.issuer ≠ JWTUtil.fixedIssuer →
      jwtVerify (JWTUtil.SECRET env) JWTUtil.fixedIssuer now t =
        .error .WrongIssuer ∧
      JWTUtil.verifyToken env now t = .error "Invalid token") := by
  rcases t with ⟨pl, iss, iat, ex, sec, wf⟩
  unfold JWTUtil.verifyToken jwtVerify trustedToken
  dsimp only
  split_ifs with h1 h2 h3 <;>
    simp_all [Bool.or_eq_true, Bool.not_eq_true', bne_iff_ne, Bool.and_eq_true,
      beq_iff_eq, decide_eq_true_eq]
  constructor <;> (intro hw hs hx; rcases h1 with h1 | h1 <;> simp_all)

/-- Concrete token carrying a foreign issuer but a valid signature. -/
def wBadIssuerToken : Token :=
  { payload := { id := "1", email := "e", name := "n" },
    issuer := "evil", iat := 0, exp := 100,
    secret := "fallback-secret-key", wellFormed := true }

/-- Witness for C7: the wrong-issuer token with a valid signature is
rejected with the WrongIssuer kind, surfaced as "Invalid token". -/
theorem C7_verifyToken_taxonomy_witness :
    jwtVerify (JWTUtil.SECRET none) JWTUtil.fixedIssuer 0 wBadIssuerToken =
      .error .WrongIssuer ∧
    JWTUtil.verifyToken none 0 wBadIssuerToken = .error "Invalid token" := by
  have h := C7_verifyToken_taxonomy none 0 wBadIssuerToken
  exact h.2.2.2 rfl rfl (by decide) (by decide)

/-- C8 counterexample: the empty header value is supplied (not absent)
and does not start with "Bearer ", so the claim predicts the
malformed-format error; the JavaScript falsy guard reports the
missing-header error instead. -/
theorem C8_extract_counterexample :
    JWTUtil.extractTokenFromHeader (some "") =
      .error "Authorization header is missing" ∧
    JWTUtil.extractTokenFromHeader (some "") ≠
      .error "Invalid authorization header format" := by
  refine ⟨rfl, fun h => ?_⟩
  exact absurd (Except.error.inj h) (by decide)

/-- C8 (amended): extractTokenFromHeader reports the missing-header
error when the header is absent or empty, the malformed-format error
when the non-empty header does not start with "Bearer ", the
missing-token error when the remainder after the prefix trims to
nothing, and otherwise returns the remainder with surrounding
whitespace trimmed. -/
theorem C8_extract_cases (h : Option String) :
    ((h = none ∨ h = some "") →
      JWTUtil.extractTokenFromHeader h = .error "Authorization header is missing") ∧
    (∀ s, h = some s → s ≠ "" → jsStartsWith s "Bearer " = false →
      JWTUtil.extractTokenFromHeader h = .error "Invalid authorization header format") ∧
    (∀ s, h = some s → jsStartsWith s "Bearer " = true → jsTrim (s.drop 7) = "" →
      JWTUtil.extractTokenFromHeader h = .error "Token is missing") ∧
    (∀ s, h = some s → jsStartsWith s "Bearer " = true → jsTrim (s.drop 7) ≠ "" →
      JWTUtil.extractTokenFromHeader h = .ok (jsTrim (s.drop 7))) := by
  refine ⟨?_, ?_, ?_, ?_⟩
  · rintro (rfl | rfl) <;> rfl
  · rintro s rfl hs hsw
    simp [JWTUtil.extractTokenFromHeader, hs, hsw]
  · rintro s rfl hsw htr
    have hs : s ≠ "" := by
      intro he
      subst he
      exact absurd hsw (by decide)
    simp [JWTUtil.extractTokenFromHeader, hs, hsw, htr]
  · rintro s rfl hsw htr
    have hs : s ≠ "" := by
      intro he
      subst he
      exact absurd hsw (by decide)
    simp [JWTUtil.extractTokenFromHeader, hs, hsw, htr]

/-- Witness for C8 covering all four branches at concrete headers,
including interior whitespace being trimmed from the token. -/
theorem C8_extract_cases_witness :
    JWTUtil.extractTokenFromHeader (some "Bearer   tok") = .ok "tok" ∧
    JWTUtil.extractTokenFromHeader none = .error "Authorization header is missing" ∧
    JWTUtil.extractTokenFromHeader (some "Basic abc") =
      .error "Invalid authorization header format" ∧
    JWTUtil.extractTokenFromHeader (some "Bearer    ") = .error "Token is missing" := by
  have h1 := C8_extract_cases (some "Bearer   tok")
  have h2 := C8_extract_cases none
  have h3 := C8_extract_cases (some "Basic abc")
  have h4 := C8_extract_cases (some "Bearer    ")
  refine ⟨?_, h2.1 (Or.inl rfl),
    h3.2.1 "Basic abc" rfl (by decide) (by decide),
    h4.2.2.1 "Bearer    " rfl (by decide) (by decide)⟩
  have hr := h1.2.2.2 "Bearer   tok" rfl (by decide) (by decide)
  have ht : jsTrim ("Bearer   tok".drop 7) = "tok" := by decide
  rw [hr, ht]

/-- First of two concrete notes sharing a creation instant. -/
def wTieA : Note :=
  { nid := 10, title := "a", content := "a", author := "u",
    tags := [], isArchived := false, createdAt := 7, updatedAt := 7 }

/-- Second of two concrete notes sharing a creation instant. -/
def wTieB : Note :=
  { nid := 11, title := "b", content := "b", author := "u",
    tags := [], isArchived := false, createdAt := 7, updatedAt := 7 }

/-- C9 counterexample: the query orders only by {createdAt: -1}; on two
notes with equal createdAt, both orders satisfy everything the code asks
of the store, so the code does not determine a unique order and cannot
guarantee the claimed id/insertion tie-break or cross-execution
determinism. -/
theorem C9_sort_counterexample :
    mongoSortSpecCreatedAtDesc [wTieA, wTieB] [wTieA, wTieB] ∧
    mongoSortSpecCreatedAtDesc [wTieA, wTieB] [wTieB, wTieA] ∧
    [wTieA, wTieB] ≠ [wTieB, wTieA] := by
  refine ⟨⟨List.Perm.refl _, ?_⟩, ⟨List.Perm.swap wTieA wTieB [], ?_⟩, by decide⟩
  · refine List.pairwise_cons.mpr ⟨?_, List.pairwise_singleton _ _⟩
    intro x hx
    rcases List.mem_singleton.mp hx with rfl
    exact le_refl _
  · refine List.pairwise_cons.mpr ⟨?_, List.pairwise_singleton _ _⟩
    intro x hx
    rcases List.mem_singleton.mp hx with rfl
    exact le_refl _

/-- C9 (amended): listing results are ordered by createdAt descending
(the executable model realizes one admissible execution of the sort
document, which itself only constrains the order up to ties). -/
theorem C9_listing_sorted_desc (textPred : String → Note → Bool)
    (store : List Note) (authorId : String) (q : NotesQuery) :
    (listNotes textPred store authorId q).notes.Pairwise
      (fun a b => b.createdAt ≤ a.createdAt) ∧
    mongoSortSpecCreatedAtDesc (matchingNotes textPred store authorId q)
      (sortCreatedAtDesc (matchingNotes textPred store authorId q)) := by
  constructor
  · rw [listNotes_notes]
    exact List.Pairwise.sublist
      ((List.take_sublist _ _).trans (List.drop_sublist _ _))
      (sortCreatedAtDesc_pairwise _)
  · exact ⟨sortCreatedAtDesc_perm _, sortCreatedAtDesc_pairwise _⟩

/-- C10: verifying a freshly generated token succeeds and returns the
user fields unchanged, for every environment including an unset
JWT_SECRET, where both sides fall back to the hard-coded secret. -/
theorem C10_generate_verify_roundtrip (env : Option String) (u : IUser)
    (now expireSeconds : Nat) (h : 0 < expireSeconds) :
    JWTUtil.verifyToken env now (JWTUtil.generateToken env expireSeconds u now) =
      .ok { id := u.uid, email := u.email, name := u.name } ∧
    JWTUtil.SECRET none = "fallback-secret-key" := by
  have h1 : ¬(now + expireSeconds ≤ now) := by omega
  refine ⟨?_, rfl⟩
  simp [JWTUtil.verifyToken, jwtVerify, JWTUtil.generateToken, h1]

/-- Concrete user for the C10 witness. -/
def wUser : IUser :=
  { uid := "507f", email := "a@x.com", name := "A", password := "p" }

/-- Witness for C10 with the 24h default expiry and an unset secret. -/
theorem C10_generate_verify_roundtrip_witness :
    JWTUtil.verifyToken none 0 (JWTUtil.generateToken none 86400 wUser 0) =
      .ok { id := "507f", email := "a@x.com", name := "A" } ∧
    JWTUtil.SECRET none = "fallback-secret-key" :=
  C10_generate_verify_roundtrip none wUser 0 86400 (by decide)
